import Mathlib

/-!
Verification of the bdaysync synchronization and scheduling engine.

Shallow embedding of the Python sources (`caldav_client.py`, `cardav_client.py`,
`config.py`, `main.py`, `scheduler.py`).  Python strings are modelled as
`List Char`; Python exceptions as `Except`; the remote calendar as an explicit
list of stored events threaded through the reconciliation functions.
-/

/-- Python strings, modelled as lists of characters. -/
abbrev Str := List Char

/-- Coerce a Lean string literal to the `List Char` model. -/
def str (s : String) : Str := s.data

/-- Errors that CPython `str.format` can raise on the templates this program
uses: `KeyError` (unknown keyword field), `IndexError` (positional or empty
field with no positional arguments), `ValueError` (unbalanced braces),
`AttributeError` (attribute access in a field). -/
inductive PyErr where
  | keyError
  | indexError
  | valueError
  | attributeError
deriving DecidableEq, Repr

/-- ASCII lowercasing of one character, as Python `str.lower` acts on the
ASCII names this program handles. -/
def py_lower_char (c : Char) : Char :=
  if 65 ≤ c.toNat ∧ c.toNat ≤ 90 then Char.ofNat (c.toNat + 32) else c

/-- Python `str.lower` on the ASCII subset. -/
def py_lower (s : Str) : Str := s.map py_lower_char

/-- Python `str.replace(' ', '-')` specialised to single characters. -/
def replace_char (a b : Char) (s : Str) : Str :=
  s.map (fun c => if c = a then b else c)

/-- Python `old in s` substring test (also: `str.__contains__`).
`has_sub p s` scans every suffix of `s` for `p` as a prefix. -/
def has_sub (p : Str) : Str → Bool
  | [] => p.isPrefixOf []
  | c :: rest => p.isPrefixOf (c :: rest) || has_sub p rest

instance {ε α : Type} [DecidableEq ε] [DecidableEq α] : DecidableEq (Except ε α) := fun x y =>
  match x, y with
  | .ok a, .ok b =>
    if h : a = b then isTrue (by rw [h]) else isFalse (fun hc => h (Except.ok.inj hc))
  | .error a, .error b =>
    if h : a = b then isTrue (by rw [h]) else isFalse (fun hc => h (Except.error.inj hc))
  | .ok _, .error _ => isFalse (fun hc => Except.noConfusion hc)
  | .error _, .ok _ => isFalse (fun hc => Except.noConfusion hc)

/-- Scanner for `py_replace`, with fuel to make the recursion structural
(each step consumes at least one character, so `s.length` fuel suffices). -/
def py_replace_go (p r : Str) : Nat → Str → Str
  | _, [] => []
  | 0, s => s
  | fuel + 1, c :: rest =>
    if p ≠ [] ∧ p.isPrefixOf (c :: rest) then
      r ++ py_replace_go p r fuel ((c :: rest).drop p.length)
    else
      c :: py_replace_go p r fuel rest

/-- Python `s.replace(p, r)`: replace all non-overlapping occurrences of `p`
left to right.  (The program never calls it with an empty pattern.) -/
def py_replace (p r : Str) (s : Str) : Str :=
  py_replace_go p r s.length s

/-- Substitute one `{field}` of `str.format`: keyword lookup in the binding
list; an empty or numeric field raises `IndexError` (no positional arguments
are ever passed); an unknown keyword raises `KeyError`. -/
def subst_field (vars : List (Str × Str)) (field : Str) : Except PyErr Str :=
  match field with
  | [] => .error .indexError
  | c :: _ =>
    if c.isDigit then .error .indexError
    else
      match vars.find? (fun v => v.1 = field) with
      | some v => .ok v.2
      | none => .error .keyError

/-- Scanner for CPython `str.format`.  The first argument is `none` outside a
replacement field and `some acc` inside one (field characters accumulated in
reverse).  `{{`/`}}` are brace escapes; a lone `}` or an unterminated `{`
raises `ValueError`. -/
def py_format_aux (vars : List (Str × Str)) : Option Str → Str → Except PyErr Str
  | none, [] => .ok []
  | none, '{' :: '{' :: rest => (fun t => '{' :: t) <$> py_format_aux vars none rest
  | none, '}' :: '}' :: rest => (fun t => '}' :: t) <$> py_format_aux vars none rest
  | none, '{' :: rest => py_format_aux vars (some []) rest
  | none, '}' :: _ => .error .valueError
  | none, c :: rest => (fun t => c :: t) <$> py_format_aux vars none rest
  | some _, [] => .error .valueError
  | some acc, '}' :: rest => do
      let sub ← subst_field vars acc.reverse
      (fun t => sub ++ t) <$> py_format_aux vars none rest
  | some acc, c :: rest => py_format_aux vars (some (c :: acc)) rest

/-- CPython `template.format(**vars)` on the subset of the format grammar this
program's templates use (plain keyword fields, no conversions or format
specs). -/
def py_format (vars : List (Str × Str)) (template : Str) : Except PyErr Str :=
  py_format_aux vars none template


/-- Render a signed integer the way `str.format` renders Python ints. -/
def int_str (i : Int) : Str :=
  if i < 0 then '-' :: (Nat.toDigits 10 i.natAbs) else Nat.toDigits 10 i.natAbs

/-- Calendar date, as Python `datetime.date` (validity tracked separately). -/
structure Date where
  year : Nat
  month : Nat
  day : Nat
deriving DecidableEq, Repr

/-- Gregorian leap-year rule, as `datetime` uses it. -/
def is_leap (y : Nat) : Bool := y % 4 = 0 && (y % 100 ≠ 0 || y % 400 = 0)

/-- Days in a month, as `datetime` uses it. -/
def days_in_month (y m : Nat) : Nat :=
  if m = 2 then (if is_leap y then 29 else 28)
  else if m = 4 ∨ m = 6 ∨ m = 9 ∨ m = 11 then 30
  else 31

/-- Python `date.replace(year=y)`: keeps month and day, validates the result
(`ValueError`, modelled as `none`, when e.g. Feb 29 lands in a non-leap
year). -/
def date_replace_year (d : Date) (y : Nat) : Option Date :=
  if 1 ≤ d.month ∧ d.month ≤ 12 ∧ 1 ≤ d.day ∧ d.day ≤ days_in_month y d.month then
    some ⟨y, d.month, d.day⟩
  else none

/-- Python `date + timedelta(days=1)`. -/
def date_next_day (d : Date) : Date :=
  if d.day < days_in_month d.year d.month then ⟨d.year, d.month, d.day + 1⟩
  else if d.month < 12 then ⟨d.year, d.month + 1, 1⟩
  else ⟨d.year + 1, 1, 1⟩

/-- Left-pad a digit string with zeros to width `w` (`strftime` field
padding). -/
def pad_zeros (w : Nat) (s : Str) : Str :=
  List.replicate (w - s.length) '0' ++ s

/-- Python `date.strftime('%Y%m%d')`. -/
def fmt_ymd (d : Date) : Str :=
  pad_zeros 4 (Nat.toDigits 10 d.year) ++ pad_zeros 2 (Nat.toDigits 10 d.month)
    ++ pad_zeros 2 (Nat.toDigits 10 d.day)

/-- A contact record as produced by `CardDAVClient.get_contacts`:
`{'name': ..., 'birthday': ...}`. -/
structure Contact where
  name : Str
  birthday : Date
deriving DecidableEq, Repr

/-- The birthday-event configuration loaded by `CalDAVClient._load_config`
from `get_birthday_config`. -/
structure BdayConfig where
  event_title_template : Str
  event_description_template : Str
  reminder_days : List Int
  reminder_template : Str
  event_category : Str
  update_existing : Bool
deriving DecidableEq, Repr

/-- The defaults of `get_birthday_config` (`config.py`).  The default title
literally holds the four mojibake characters U+00F0 U+0178 U+017D U+201A that
the source file stores in place of the birthday-cake emoji; the default
`BIRTHDAY_REMINDER_DAYS` string `"1"` parses to `[1]`. -/
def default_config : BdayConfig where
  event_title_template := str "ðŸŽ‚ {name}'s Birthday"
  event_description_template := str "Birthday of {name}"
  reminder_days := [1]
  reminder_template := str "Reminder: {name}'s birthday is in {days} days!"
  event_category := str "Birthday"
  update_existing := true

/-- A VALARM of a stored event: its TRIGGER in days (`none` when the alarm
has no `trigger` attribute or a non-`timedelta` value) and its DESCRIPTION
message. -/
structure Alarm where
  trigger_days : Option Int
  message : Str
deriving DecidableEq, Repr

/-- A VEVENT stored on the CalDAV server, with the optional attributes the
code probes via `hasattr`. -/
structure StoredEvent where
  date : Date
  uid : Option Str
  summary : Option Str
  descr : Option Str
  categories : List Str
  rrule : Option Str
  alarms : List Alarm
deriving DecidableEq, Repr

/-- The target calendar: the events it currently stores, in server order. -/
abbrev CalState := List StoredEvent

/-- The per-event match test of `_find_existing_event`: the event must have a
`summary`; it matches when the contact name occurs in the summary together
with the category or the keyword "birthday" (case-insensitive), or otherwise
when its UID starts with `"birthday-" + normalized(name)`. -/
def event_matches (name category : Str) (ev : StoredEvent) : Bool :=
  match ev.summary with
  | none => false
  | some summary =>
    (has_sub name summary &&
      (has_sub (py_lower category) (py_lower summary) ||
        has_sub (str "birthday") (py_lower summary))) ||
    (match ev.uid with
     | some uid => (str "birthday-" ++ py_lower (replace_char ' ' '-' name)).isPrefixOf uid
     | none => false)

/-- Index of the first list element satisfying `p` (the `for event in events`
scan of `_find_existing_event`). -/
def find_first {α : Type} (p : α → Bool) : List α → Option Nat
  | [] => none
  | x :: xs => if p x then some 0 else (find_first p xs).map (· + 1)

/-- `_find_existing_event(name, date)`: the server-side time-range query
restricts to events on `date`; the client then scans them in order with
`event_matches`.  Returns the index of the matched event in the calendar. -/
def find_existing_event (name category : Str) (date : Date) (st : CalState) : Option Nat :=
  find_first (fun ev => decide (ev.date = date) && event_matches name category ev) st

/-- The deterministic UID of `create_birthday_event`:
`f"birthday-{name.replace(' ', '-').lower()}-{event_date.strftime('%Y%m%d')}"`. -/
def event_uid (name : Str) (event_date : Date) : Str :=
  str "birthday-" ++ py_lower (replace_char ' ' '-' name) ++ str "-" ++ fmt_ymd event_date


/-- The fixed fallback phrases of `_format_reminder_message`'s `except`
branch, keyed on `days_before`. -/
def fallback_message (name : Str) (days_before : Int) : Str :=
  if days_before = 0 then str "Today is " ++ name ++ str "'s birthday!"
  else if days_before = 1 then str "Tomorrow is " ++ name ++ str "'s birthday!"
  else name ++ str "'s birthday is in " ++ int_str days_before ++ str " days!"

/-- The `try` body of `_format_reminder_message`: render the template with
the three-way special-casing on `days_before` (the "today" textual fixups for
0, the "1 days" → "1 day" fixup for 1). -/
def render_reminder (template name : Str) (days_before : Int) : Except PyErr Str :=
  let vars := [(str "name", name), (str "days", int_str days_before)]
  if days_before = 0 then
    if has_sub (str "{days}") template then
      (py_format vars template).map (fun m =>
        py_replace (str "is in today") (str "is today")
          (py_replace (str "in 0 day") (str "today")
            (py_replace (str "in 0 days") (str "today") m)))
    else .ok (str "Today is " ++ name ++ str "'s birthday!")
  else if days_before = 1 then
    (py_format vars template).map (py_replace (str "1 days") (str "1 day"))
  else
    py_format vars template

/-- `CalDAVClient._format_reminder_message`: the rendering above wrapped in
`except (KeyError, ValueError, AttributeError)`, which falls back to a fixed
phrase; any other exception (notably `IndexError`) propagates. -/
def format_reminder_message (template name : Str) (days_before : Int) : Except PyErr Str :=
  match render_reminder template name days_before with
  | .ok m => .ok m
  | .error e =>
    if e = .keyError ∨ e = .valueError ∨ e = .attributeError then
      .ok (fallback_message name days_before)
    else .error e

/-- The body of the alarm-construction loop (one `days_before` at a time). -/
def build_alarms_go (template name : Str) : List Int → Except PyErr (List Alarm)
  | [] => .ok []
  | d :: ds =>
    match format_reminder_message template name d with
    | .error e => .error e
    | .ok m =>
      match build_alarms_go template name ds with
      | .error e => .error e
      | .ok rest => .ok ({ trigger_days := some (-d), message := m } :: rest)

/-- The alarm-construction loop shared by `create_birthday_event` and
`_update_existing_event`: one DISPLAY alarm per configured reminder day with
`trigger = timedelta(days=-days_before)`; a propagating message-formatting
error aborts the whole operation. -/
def build_alarms (cfg : BdayConfig) (name : Str) : Except PyErr (List Alarm) :=
  build_alarms_go cfg.reminder_template name cfg.reminder_days

/-- Insert into a sorted list (helper for `py_sorted`). -/
def insert_sorted (x : Int) : List Int → List Int
  | [] => [x]
  | y :: ys => if x ≤ y then x :: y :: ys else y :: insert_sorted x ys

/-- Python `sorted` / `list.sort` on integer lists (insertion sort). -/
def py_sorted (l : List Int) : List Int := l.foldr insert_sorted []

/-- `CalDAVClient._update_existing_event` applied to the event at index `i`
of the calendar.  Mirrors the source: recompute the event date; compare the
existing title, description and sorted reminder day-set (absolute trigger
days of alarms that carry a `timedelta` trigger) against the new values and
return `False` with no write when all are equal; otherwise replace summary,
description, categories and the full alarm set and save.  Any exception
(invalid date, propagating message-formatting error) is caught and yields
`False` with no write. -/
def update_existing_event (cfg : BdayConfig) (i : Nat) (contact : Contact) (year : Nat)
    (new_title new_description : Str) (st : CalState) : Bool × CalState :=
  match st[i]? with
  | none => (false, st)
  | some ev =>
    match date_replace_year contact.birthday year with
    | none => (false, st)
    | some _ =>
      let current_title := ev.summary.getD []
      let current_description := ev.descr.getD []
      let current_reminders :=
        py_sorted ((ev.alarms.filterMap (·.trigger_days)).map (fun t => |t|))
      let expected_reminders := py_sorted cfg.reminder_days
      if current_title = new_title ∧ current_description = new_description ∧
          current_reminders = expected_reminders then
        (false, st)
      else
        match build_alarms cfg contact.name with
        | .error _ => (false, st)
        | .ok alarms =>
          (true, st.set i { ev with
            summary := some new_title
            descr := some new_description
            categories := [cfg.event_category]
            alarms := alarms })

/-- `CalDAVClient.create_birthday_event`: compute the event date, render the
title and description templates, look for an existing event (then update or
skip), otherwise build the full VEVENT (all-day, yearly RRULE, one alarm per
reminder day) and save it.  Returns Python's `True` for a write
(created/updated) and `False` otherwise; every exception is caught and yields
`False` with the calendar unchanged. -/
def create_birthday_event (cfg : BdayConfig) (contact : Contact) (year : Nat)
    (st : CalState) : Bool × CalState :=
  match date_replace_year contact.birthday year with
  | none => (false, st)
  | some event_date =>
    match py_format [(str "name", contact.name)] cfg.event_title_template with
    | .error _ => (false, st)
    | .ok event_title =>
      match py_format [(str "name", contact.name)] cfg.event_description_template with
      | .error _ => (false, st)
      | .ok event_description =>
        match find_existing_event contact.name cfg.event_category event_date st with
        | some i =>
          if cfg.update_existing then
            update_existing_event cfg i contact year event_title event_description st
          else (false, st)
        | none =>
          match build_alarms cfg contact.name with
          | .error _ => (false, st)
          | .ok alarms =>
            (true, st ++ [{
              date := event_date
              uid := some (event_uid contact.name event_date)
              summary := some event_title
              descr := some event_description
              categories := [cfg.event_category]
              rrule := some (str "FREQ=YEARLY")
              alarms := alarms }])

/-- `main_sync` (`main.py`): connect and fetch (a setup or fetch failure is
the fatal case, modelled by the `Except` argument), fail when no contacts
were found, otherwise reconcile every contact for the current and the next
year — per-contact outcomes are counted but never abort the batch — and
report success.  The calendar client is abstracted as the `create` argument
(in the program it is `CalDAVClient.create_birthday_event`, which catches all
of its own exceptions).  Returns (success, created count, final state). -/
def main_sync {σ : Type} (fetch : Except Unit (List Contact))
    (create : Contact → Nat → σ → Bool × σ) (current_year : Nat) (st : σ) :
    Bool × Nat × σ :=
  match fetch with
  | .error _ => (false, 0, st)
  | .ok contacts =>
    if contacts = [] then (false, 0, st)
    else
      let step := fun (acc : Nat × σ) (c : Contact) =>
        let r1 := create c current_year acc.2
        let n1 := acc.1 + (if r1.1 then 1 else 0)
        let r2 := create c (current_year + 1) r1.2
        (n1 + (if r2.1 then 1 else 0), r2.2)
      let res := contacts.foldl step (0, st)
      (true, res.1, res.2)

/-- A cron schedule as seen through `croniter`: `none` when `croniter(expr, t)`
raises on a syntactically invalid expression, otherwise the function taking
the base time to the next fire time.  Times are wall-clock seconds. -/
abbrev CronSched := Option (Nat → Nat)

/-- `SchedulerService._next_sync_time`: next fire time from now, falling back
to now + 1 hour when the cron expression is invalid. -/
def next_sync_time (sched : CronSched) (now : Nat) : Nat :=
  match sched with
  | some next => next now
  | none => now + 3600

/-- `SchedulerService._should_sync_cron`: due when the next fire time
computed from one tick (a minute) in the past is not after now; `False` when
the cron expression is invalid. -/
def should_sync_cron (sched : CronSched) (now : Nat) : Bool :=
  match sched with
  | some next => decide (next (now - 60) ≤ now)
  | none => false

/-- `SchedulerService._should_sync_interval`: interval mode is off for a
non-positive `sync_interval_hours`; otherwise due when never synced or when
at least that many hours have passed since the last successful sync. -/
def should_sync_interval (sync_interval_hours : Int) (last_sync : Option Nat)
    (now : Nat) : Bool :=
  if sync_interval_hours ≤ 0 then false
  else
    match last_sync with
    | none => true
    | some t => decide ((now : Int) - t ≥ sync_interval_hours * 3600)

/-- `SchedulerService._perform_sync`: run the diagnostic or the sync
operation (its outcome, or the exception it raises, is the `op` argument) and
record `last_sync := now` exactly when a non-diagnostic sync returns success;
an exception is caught and reported as failure.  Returns (success, new
`last_sync`). -/
def perform_sync (diagnostic : Bool) (op : Except Unit Bool) (now : Nat)
    (last_sync : Option Nat) : Bool × Option Nat :=
  match op with
  | .error _ => (false, last_sync)
  | .ok success =>
    if diagnostic then (success, last_sync)
    else if success then (success, some now) else (success, last_sync)

/-- Python `int(s)` parse of a digit string (helper for `_parse_vcard`). -/
def digits_to_nat (s : Str) : Option Nat :=
  if s ≠ [] ∧ s.all Char.isDigit then
    some (s.foldl (fun acc c => acc * 10 + (c.toNat - 48)) 0)
  else none

/-- `datetime.strptime(s, '%Y-%m-%d').date()` on the inputs `_parse_vcard`
builds: three dash-separated digit fields, validated as a date. -/
def strptime_ymd (s : Str) : Option Date :=
  match s.splitOn '-' with
  | [ys, ms, ds] =>
    match digits_to_nat ys, digits_to_nat ms, digits_to_nat ds with
    | some y, some m, some d =>
      if 1 ≤ m ∧ m ≤ 12 ∧ 1 ≤ d ∧ d ≤ days_in_month y m then some ⟨y, m, d⟩
      else none
    | _, _, _ => none
  | _ => none

/-- `datetime.strptime(s, '%Y%m%d').date()`: eight digits. -/
def strptime_ymd8 (s : Str) : Option Date :=
  match digits_to_nat (s.take 4), digits_to_nat (s.drop 4 |>.take 2),
      digits_to_nat (s.drop 6) with
  | some y, some m, some d =>
    if 1 ≤ m ∧ m ≤ 12 ∧ 1 ≤ d ∧ d ≤ days_in_month y m then some ⟨y, m, d⟩
    else none
  | _, _, _ => none

/-- `datetime.strptime(s, '%m/%d/%Y').date()` and the `%d/%m/%Y` retry of
`_parse_vcard` (helper). -/
def strptime_mdy (s : Str) (day_first : Bool) : Option Date :=
  match s.splitOn '/' with
  | [asg, bs, ys] =>
    match digits_to_nat asg, digits_to_nat bs, digits_to_nat ys with
    | some a, some b, some y =>
      let m := if day_first then b else a
      let d := if day_first then a else b
      if 1 ≤ m ∧ m ≤ 12 ∧ 1 ≤ d ∧ d ≤ days_in_month y m then some ⟨y, m, d⟩
      else none
    | _, _, _ => none
  | _ => none

/-- Python `str.strip()` whitespace set, as used on birthday strings. -/
def py_strip (s : Str) : Str :=
  (s.dropWhile Char.isWhitespace).reverse.dropWhile Char.isWhitespace |>.reverse

/-- The birthday-string branch of `CardDAVClient._parse_vcard` (lines
289–315): clean the value (strip, drop a `T...` time part), then try the
recognized formats in order — `YYYYMMDD`, `YYYY-MM-DD`, `MM/DD/YYYY` (with a
`DD/MM/YYYY` retry), and the year-less `--MM-DD` which is parsed with the
placeholder year 2000.  Unknown formats and parse failures yield `none`
(contact excluded). -/
def parse_bday_string (bday : Str) : Option Date :=
  let bday_clean := (py_strip bday).takeWhile (· ≠ 'T')
  if bday_clean.length = 8 ∧ bday_clean.all Char.isDigit then
    strptime_ymd8 bday_clean
  else if bday_clean.length = 10 ∧ bday_clean.count '-' = 2 then
    strptime_ymd bday_clean
  else if bday_clean.length = 10 ∧ bday_clean.count '/' = 2 then
    match strptime_mdy bday_clean false with
    | some d => some d
    | none => strptime_mdy bday_clean true
  else if (str "--").isPrefixOf bday_clean then
    strptime_ymd (str "2000-" ++ bday_clean.drop 2)
  else none


theorem char_toNat_ofNat (n : Nat) (h : n.isValidChar) : (Char.ofNat n).toNat = n := by
  simp only [Char.ofNat, dif_pos h]
  simp [Char.ofNatAux, Char.toNat, UInt32.toNat, BitVec.toNat_ofNatLt]

theorem py_lower_char_space_iff (c : Char) : py_lower_char c = ' ' ↔ c = ' ' := by
  unfold py_lower_char
  by_cases hc : 65 ≤ c.toNat ∧ c.toNat ≤ 90
  · rw [if_pos hc]
    constructor
    · intro h
      have hv : Nat.isValidChar (c.toNat + 32) := Or.inl (by omega)
      have h2 := char_toNat_ofNat (c.toNat + 32) hv
      rw [h] at h2
      have h3 : (' ' : Char).toNat = 32 := rfl
      omega
    · intro h
      exfalso
      rw [h] at hc
      have h3 : (' ' : Char).toNat = 32 := rfl
      omega
  · rw [if_neg hc]

theorem py_lower_replace_char_comm (s : Str) :
    py_lower (replace_char ' ' '-' s) = replace_char ' ' '-' (py_lower s) := by
  induction s with
  | nil => rfl
  | cons c cs ih =>
    simp only [replace_char, py_lower, List.map_cons] at ih ⊢
    have hhead : py_lower_char (if c = ' ' then '-' else c) =
        if py_lower_char c = ' ' then '-' else py_lower_char c := by
      by_cases hc : c = ' '
      · subst hc; decide
      · rw [if_neg hc, if_neg (fun h => hc ((py_lower_char_space_iff c).mp h))]
    rw [hhead, ih]

/-- Claim C2: the UID of a birthday event is a pure function of contact name
and event date, equal to "birthday-" plus the name lowercased with spaces
replaced by hyphens, plus "-" plus the date as YYYYMMDD; and for name
"Ada Lovelace", birthday December 10 placed into year 2025, the UID is
exactly "birthday-ada-lovelace-20251210". -/
theorem uid_deterministic :
    (∀ (name : Str) (d : Date),
      event_uid name d =
        str "birthday-" ++ replace_char ' ' '-' (py_lower name) ++ str "-" ++ fmt_ymd d) ∧
    date_replace_year ⟨1815, 12, 10⟩ 2025 = some ⟨2025, 12, 10⟩ ∧
    event_uid (str "Ada Lovelace") ⟨2025, 12, 10⟩ = str "birthday-ada-lovelace-20251210" := by
  refine ⟨fun name d => ?_, by decide, by decide⟩
  simp [event_uid, py_lower_replace_char_comm]

/-- Claim C7: on a syntactically invalid cron expression the due-check
neither raises nor fires: it returns `false`, which is exactly the behaviour
the check would have if the next fire time were one hour after the current
time, and `_next_sync_time` falls back to now + 1 hour. -/
theorem invalid_cron_fallback (now : Nat) :
    should_sync_cron none now = false ∧
    should_sync_cron none now = should_sync_cron (some (fun _ => now + 3600)) now ∧
    next_sync_time none now = now + 3600 := by
  refine ⟨rfl, ?_, rfl⟩
  simp [should_sync_cron]

/-- Claim C10: `last_sync` is written only when a non-diagnostic sync returns
success; a diagnostic pass, a failed sync and a raising sync all leave it
unchanged, so in interval mode a sync that was due and failed is still due at
every later tick. -/
theorem last_sync_frame (d : Bool) (op : Except Unit Bool) (now : Nat) (ls : Option Nat) :
    ((perform_sync d op now ls).2 ≠ ls →
      d = false ∧ op = .ok true ∧ (perform_sync d op now ls).2 = some now) ∧
    (d = true → (perform_sync d op now ls).2 = ls) ∧
    (op = .error () → (perform_sync d op now ls).2 = ls) ∧
    (op = .ok false → (perform_sync d op now ls).2 = ls) ∧
    (∀ (ih : Int) (now' : Nat), should_sync_interval ih ls now = true → now ≤ now' →
      should_sync_interval ih (perform_sync false (.ok false) now ls).2 now' = true) := by
  refine ⟨?_, ?_, ?_, ?_, ?_⟩
  · intro hne
    match d, op with
    | true, .error () => exact absurd rfl hne
    | true, .ok b => exact absurd rfl hne
    | false, .error () => exact absurd rfl hne
    | false, .ok true => exact ⟨rfl, rfl, rfl⟩
    | false, .ok false => exact absurd rfl hne
  · intro hd
    subst hd
    match op with
    | .error () => rfl
    | .ok b => rfl
  · intro hop; subst hop; rfl
  · intro hop
    subst hop
    match d with
    | true => rfl
    | false => rfl
  · intro ih now' hdue hle
    show should_sync_interval ih ls now' = true
    unfold should_sync_interval at hdue ⊢
    by_cases hih : ih ≤ 0
    · rw [if_pos hih] at hdue
      exact absurd hdue (by simp)
    · rw [if_neg hih] at hdue ⊢
      match ls with
      | none => rfl
      | some t =>
        simp only [decide_eq_true_eq] at hdue ⊢
        have : (now : Int) ≤ (now' : Int) := Int.ofNat_le.mpr hle
        omega

/-- Witness for `last_sync_frame` at concrete inputs: a diagnostic success
and a failed sync both leave `last_sync` untouched, and a due-and-failed
sync (interval 1 h, last success at 0, now 3600) is still due at 7200. -/
theorem last_sync_frame_witness :
    (perform_sync true (.ok true) 50 (some 7)).2 = some 7 ∧
    (perform_sync false (.ok false) 50 (some 7)).2 = some 7 ∧
    should_sync_interval 1 (some 0) 3600 = true ∧
    should_sync_interval 1 (perform_sync false (.ok false) 3600 (some 0)).2 7200 = true :=
  ⟨(last_sync_frame true (.ok true) 50 (some 7)).2.1 rfl,
   (last_sync_frame false (.ok false) 50 (some 7)).2.2.2.1 rfl,
   by decide,
   (last_sync_frame false (.ok false) 3600 (some 0)).2.2.2.2 1 7200 (by decide) (by decide)⟩

/-- Claim C8: when the existing event's title and description equal the new
ones and its reminder day-set read from the alarms is set-equal after sorting
to the configured day-set, `_update_existing_event` reports that no update is
needed and performs no write, independently of the order the days are listed
in. -/
theorem reminder_set_equal_skips (cfg : BdayConfig) (i : Nat) (contact : Contact)
    (year : Nat) (new_title new_description : Str) (st : CalState) (ev : StoredEvent)
    (hev : st[i]? = some ev)
    (htitle : ev.summary = some new_title)
    (hdescr : ev.descr = some new_description)
    (hrem : py_sorted ((ev.alarms.filterMap (·.trigger_days)).map (fun t => |t|)) =
      py_sorted cfg.reminder_days) :
    update_existing_event cfg i contact year new_title new_description st = (false, st) := by
  unfold update_existing_event
  rw [hev]
  cases hrep : date_replace_year contact.birthday year with
  | none => rfl
  | some d => simp [htitle, hdescr, hrem]

/-- Witness for `reminder_set_equal_skips`: an event listing its alarms as
7-then-1 days against a configured [1, 7] is skipped without a write. -/
theorem reminder_set_equal_skips_witness :
    update_existing_event
      ⟨str "T {name}", str "D {name}", [1, 7], str "R", str "Birthday", true⟩
      0 ⟨str "Bob", ⟨2000, 6, 15⟩⟩ 2025 (str "T Bob") (str "D Bob")
      [⟨⟨2025, 6, 15⟩, some (str "u"), some (str "T Bob"), some (str "D Bob"),
        [], none, [⟨some (-7), str "m7"⟩, ⟨some (-1), str "m1"⟩]⟩] =
    (false,
      [⟨⟨2025, 6, 15⟩, some (str "u"), some (str "T Bob"), some (str "D Bob"),
        [], none, [⟨some (-7), str "m7"⟩, ⟨some (-1), str "m1"⟩]⟩]) :=
  reminder_set_equal_skips
    ⟨str "T {name}", str "D {name}", [1, 7], str "R", str "Birthday", true⟩
    0 ⟨str "Bob", ⟨2000, 6, 15⟩⟩ 2025 (str "T Bob") (str "D Bob")
    [⟨⟨2025, 6, 15⟩, some (str "u"), some (str "T Bob"), some (str "D Bob"),
      [], none, [⟨some (-7), str "m7"⟩, ⟨some (-1), str "m1"⟩]⟩]
    ⟨⟨2025, 6, 15⟩, some (str "u"), some (str "T Bob"), some (str "D Bob"),
      [], none, [⟨some (-7), str "m7"⟩, ⟨some (-1), str "m1"⟩]⟩
    (by decide) (by decide) (by decide) (by decide)

/-- Claim C3 counterexample: with an empty contact sequence — a normal state
of the record source — `main_sync` reports failure, not success. -/
theorem pass_success_counterexample :
    (main_sync (Except.ok ([] : List Contact)) (fun _ _ (s : Unit) => (true, s)) 2025 ()).1
      = false := rfl

/-- Claim C3 (amended): a pass that connects and finds a non-empty contact
sequence always reports success, whatever the per-contact outcomes are
(`create_birthday_event` catches its own exceptions and just returns a
boolean); a fatal setup/fetch error and the empty sequence report failure. -/
theorem pass_success_policy {σ : Type} (create : Contact → Nat → σ → Bool × σ)
    (year : Nat) (st : σ) (contacts : List Contact) (hne : contacts ≠ []) :
    (main_sync (Except.ok contacts) create year st).1 = true ∧
    (main_sync (Except.error ()) create year st).1 = false ∧
    (main_sync (Except.ok ([] : List Contact)) create year st).1 = false := by
  refine ⟨?_, rfl, rfl⟩
  simp only [main_sync]
  rw [if_neg hne]

/-- Witness for `pass_success_policy`: one contact whose reconciliation
fails both years still yields a successful pass. -/
theorem pass_success_policy_witness :
    (main_sync (Except.ok [⟨str "Bob", ⟨2000, 6, 15⟩⟩])
      (fun _ _ (s : Unit) => (false, s)) 2025 ()).1 = true :=
  (pass_success_policy (fun _ _ (s : Unit) => (false, s)) 2025 ()
    [⟨str "Bob", ⟨2000, 6, 15⟩⟩] (by decide)).1

theorem find_first_eq_some {α : Type} {p : α → Bool} {l : List α} {i : Nat}
    (h : find_first p l = some i) :
    ∃ x, l[i]? = some x ∧ p x = true ∧
      ∀ j, j < i → ∀ y, l[j]? = some y → p y = false := by
  induction l generalizing i with
  | nil => exact absurd h (by simp [find_first])
  | cons a as ih =>
    unfold find_first at h
    by_cases hp : p a
    · rw [if_pos hp] at h
      have hi : i = 0 := by
        have := Option.some.inj h
        omega
      subst hi
      exact ⟨a, by simp, hp, fun j hj => by omega⟩
    · rw [if_neg hp] at h
      match hfa : find_first p as with
      | none => rw [hfa] at h; exact absurd h (by simp)
      | some i' =>
        rw [hfa] at h
        have hi : i = i' + 1 := by
          have h2 := Option.some.inj h
          simp only [] at h2
          omega
        subst hi
        obtain ⟨x, hx, hpx, hprior⟩ := ih hfa
        refine ⟨x, by simpa using hx, hpx, ?_⟩
        intro j hj y hy
        match j with
        | 0 =>
          simp only [List.getElem?_cons_zero] at hy
          rw [← Option.some.inj hy]
          exact eq_false_of_ne_true hp
        | j' + 1 =>
          exact hprior j' (by omega) y (by simpa using hy)

theorem find_first_eq_some_of {α : Type} {p : α → Bool} {l : List α} {i : Nat} {x : α}
    (hx : l[i]? = some x) (hpx : p x = true)
    (hprior : ∀ j, j < i → ∀ y, l[j]? = some y → p y = false) :
    find_first p l = some i := by
  induction l generalizing i with
  | nil => simp at hx
  | cons a as ih =>
    match i with
    | 0 =>
      simp only [List.getElem?_cons_zero] at hx
      rw [← Option.some.inj hx] at hpx
      unfold find_first
      rw [if_pos hpx]
    | i' + 1 =>
      have hpa : p a = false := hprior 0 (by omega) a (by simp)
      unfold find_first
      rw [if_neg (by simp [hpa])]
      have : find_first p as = some i' := by
        refine ih (by simpa using hx) ?_
        intro j hj y hy
        exact hprior (j + 1) (by omega) y (by simpa using hy)
      rw [this]
      rfl

theorem find_first_eq_none {α : Type} {p : α → Bool} {l : List α}
    (h : find_first p l = none) : ∀ x ∈ l, p x = false := by
  induction l with
  | nil => intro x hx; simp at hx
  | cons a as ih =>
    unfold find_first at h
    by_cases hp : p a
    · rw [if_pos hp] at h; exact absurd h (by simp)
    · rw [if_neg hp] at h
      intro x hx
      rcases List.mem_cons.mp hx with hxa | hxas
      · rw [hxa]; exact eq_false_of_ne_true hp
      · match hfa : find_first p as with
        | none => exact ih hfa x hxas
        | some i' => rw [hfa] at h; exact absurd h (by simp)

/-- Claim C4 (amended): an event with a summary matches when the name occurs
in the summary together with the category or the "birthday" keyword, or —
alone — when its UID starts with the deterministic "birthday-"+normalized
name stub; but the UID check is only reached for events that do have a
summary, so an event whose summary is absent never matches, and every event
 `_find_existing_event` returns lies on the queried date, matched and
carrying a summary. -/
theorem dual_match_strategy :
    (∀ (name cat : Str) (ev : StoredEvent), ev.summary = none →
      event_matches name cat ev = false) ∧
    (∀ (name cat : Str) (ev : StoredEvent) (s u : Str), ev.summary = some s →
      ev.uid = some u →
      (str "birthday-" ++ py_lower (replace_char ' ' '-' name)).isPrefixOf u = true →
      event_matches name cat ev = true) ∧
    (∀ (name cat : Str) (ev : StoredEvent) (s : Str), ev.summary = some s →
      has_sub name s = true →
      (has_sub (py_lower cat) (py_lower s) || has_sub (str "birthday") (py_lower s)) = true →
      event_matches name cat ev = true) ∧
    (∀ (name cat : Str) (date : Date) (st : CalState) (i : Nat),
      find_existing_event name cat date st = some i →
      ∃ ev, st[i]? = some ev ∧ ev.date = date ∧ event_matches name cat ev = true ∧
        ev.summary ≠ none) := by
  refine ⟨?_, ?_, ?_, ?_⟩
  · intro name cat ev hs
    unfold event_matches
    rw [hs]
  · intro name cat ev s u hs hu hp
    unfold event_matches
    rw [hs, hu]
    simp [hp]
  · intro name cat ev s hs hname hkey
    unfold event_matches
    rw [hs]
    simp [hname, hkey]
  · intro name cat date st i h
    obtain ⟨ev, hev, hp, _⟩ := find_first_eq_some h
    refine ⟨ev, hev, ?_, ?_, ?_⟩
    · have := (Bool.and_eq_true _ _).mp hp
      exact of_decide_eq_true this.1
    · exact ((Bool.and_eq_true _ _).mp hp).2
    · intro hnone
      have hm := ((Bool.and_eq_true _ _).mp hp).2
      unfold event_matches at hm
      rw [hnone] at hm
      exact Bool.noConfusion hm

/-- Witness for `dual_match_strategy`: a UID-only match (summary present but
failing the name test), a summary-only match, and a concrete successful
lookup. -/
theorem dual_match_strategy_witness :
    event_matches (str "Bob") (str "Birthday")
      ⟨⟨2025, 6, 15⟩, some (str "birthday-bob-20250615"), some (str "Party"), none, [], none, []⟩
      = true ∧
    event_matches (str "Bob") (str "Birthday")
      ⟨⟨2025, 6, 15⟩, none, some (str "Bob's birthday bash"), none, [], none, []⟩
      = true ∧
    event_matches (str "Bob") (str "Birthday")
      ⟨⟨2025, 6, 15⟩, some (str "other-uid"), none, none, [], none, []⟩
      = false :=
  ⟨dual_match_strategy.2.1 (str "Bob") (str "Birthday")
      ⟨⟨2025, 6, 15⟩, some (str "birthday-bob-20250615"), some (str "Party"), none, [], none, []⟩
      (str "Party") (str "birthday-bob-20250615") rfl rfl (by decide),
   dual_match_strategy.2.2.1 (str "Bob") (str "Birthday")
      ⟨⟨2025, 6, 15⟩, none, some (str "Bob's birthday bash"), none, [], none, []⟩
      (str "Bob's birthday bash") rfl (by decide) (by decide),
   dual_match_strategy.1 (str "Bob") (str "Birthday")
      ⟨⟨2025, 6, 15⟩, some (str "other-uid"), none, none, [], none, []⟩ rfl⟩

/-- Claim C4 counterexample: an event that carries the matching deterministic
UID but no summary is NOT found — `_find_existing_event` only reaches its UID
check behind the `hasattr(cal.vevent, 'summary')` guard. -/
theorem dual_match_strategy_counterexample :
    (str "birthday-" ++ py_lower (replace_char ' ' '-' (str "Bob"))).isPrefixOf
      (str "birthday-bob-20250615") = true ∧
    find_existing_event (str "Bob") (str "Birthday") ⟨2025, 6, 15⟩
      [⟨⟨2025, 6, 15⟩, some (str "birthday-bob-20250615"), none, none, [], none, []⟩]
      = none := by
  exact ⟨by decide, by decide⟩

/-- Claim C6 (amended): a caught rendering error — `KeyError`, `ValueError`
or `AttributeError` — makes `_format_reminder_message` return the fixed
fallback phrase selected by `days_before` being 0, 1 or otherwise; but an
`IndexError` (empty or positional placeholder) is outside the `except` tuple
and propagates, failing the contact. -/
theorem template_error_fallback (template name : Str) (days_before : Int) :
    (∀ e, render_reminder template name days_before = .error e → e ≠ .indexError →
      format_reminder_message template name days_before =
        .ok (fallback_message name days_before)) ∧
    (∀ e, format_reminder_message template name days_before = .error e →
      e = .indexError ∧ render_reminder template name days_before = .error .indexError) := by
  unfold format_reminder_message
  cases hr : render_reminder template name days_before with
  | ok m =>
    refine ⟨fun e he => absurd he (by simp), fun e he => absurd he (by simp)⟩
  | error e' =>
    constructor
    · intro e he hne
      have : e' = e := Except.error.inj he
      subst this
      match e' with
      | .keyError => rfl
      | .valueError => rfl
      | .attributeError => rfl
      | .indexError => exact absurd rfl hne
    · intro e he
      match e' with
      | .keyError => exact absurd he (by simp)
      | .valueError => exact absurd he (by simp)
      | .attributeError => exact absurd he (by simp)
      | .indexError =>
        simp only [if_neg (by simp : ¬(PyErr.indexError = .keyError ∨
          PyErr.indexError = .valueError ∨ PyErr.indexError = .attributeError))] at he
        exact ⟨(Except.error.inj he).symm, rfl⟩

/-- Witness for `template_error_fallback`: a template with an unknown
placeholder (KeyError) falls back to the fixed 2-days-ahead phrase. -/
theorem template_error_fallback_witness :
    format_reminder_message (str "{oops} ahead") (str "Bob") 2 =
      .ok (fallback_message (str "Bob") 2) :=
  (template_error_fallback (str "{oops} ahead") (str "Bob") 2).1 .keyError
    (by decide) (by decide)

/-- Claim C6 counterexample: an `IndexError` from an empty-field template is not
caught by `_format_reminder_message` — the error propagates instead of
producing a fallback phrase, and `create_birthday_event` then fails the
contact (returns False, nothing written). -/
theorem template_error_fallback_counterexample :
    format_reminder_message (str "\x7b\x7d") (str "Bob") 2 = .error .indexError ∧
    create_birthday_event ⟨str "T", str "D", [2], str "\x7b\x7d", str "Birthday", true⟩
      ⟨str "Bob", ⟨2000, 6, 15⟩⟩ 2025 [] = (false, []) := by
  exact ⟨by decide, by decide⟩

/-- Claim C9 (amended): for contact "Bob" with year-less birthday --06-15
(parsed with placeholder year 2000), reconciled against 2025 under the
default configuration on an empty calendar: the event is dated 2025-06-15,
has UID "birthday-bob-20250615", a yearly recurrence rule, and exactly one
alarm 1 day before — whose message, rendered from the default reminder
template, is "Reminder: Bob's birthday is in 1 day!" (the default title
keeps the literal mojibake characters stored in `config.py`). -/
theorem default_scenario :
    parse_bday_string (str "--06-15") = some ⟨2000, 6, 15⟩ ∧
    create_birthday_event default_config ⟨str "Bob", ⟨2000, 6, 15⟩⟩ 2025 [] =
      (true, [⟨⟨2025, 6, 15⟩,
        some (str "birthday-bob-20250615"),
        some (str "ðŸŽ‚ Bob's Birthday"),
        some (str "Birthday of Bob"),
        [str "Birthday"],
        some (str "FREQ=YEARLY"),
        [⟨some (-1), str "Reminder: Bob's birthday is in 1 day!"⟩]⟩]) := by
  exact ⟨by decide, by decide⟩

/-- Claim C9 counterexample: the single alarm's message under the default
configuration is "Reminder: Bob's birthday is in 1 day!", not the claimed
"Tomorrow is Bob's birthday!" (that phrase is only the error fallback). -/
theorem default_scenario_counterexample :
    ((create_birthday_event default_config ⟨str "Bob", ⟨2000, 6, 15⟩⟩ 2025 []).2.map
      (fun ev => ev.alarms.map (·.message))) =
      [[str "Reminder: Bob's birthday is in 1 day!"]] ∧
    [[str "Reminder: Bob's birthday is in 1 day!"]] ≠
      [[str "Tomorrow is Bob's birthday!"]] := by
  exact ⟨by decide, by decide⟩

theorem isPrefixOf_getElem {p l : Str} (h : p.isPrefixOf l = true)
    {k : Nat} (hk : k < p.length) : l[k]? = p[k]? := by
  induction p generalizing l k with
  | nil => simp at hk
  | cons a p' ih =>
    match l with
    | [] => simp [List.isPrefixOf] at h
    | b :: l' =>
      simp only [List.isPrefixOf, Bool.and_eq_true, beq_iff_eq] at h
      match k with
      | 0 => simp [h.1]
      | k' + 1 =>
        simp only [List.getElem?_cons_succ]
        exact ih h.2 (by simpa using hk)

theorem mem_of_isPrefixOf {p l : Str} {c : Char} (h : p.isPrefixOf l = true)
    (hc : c ∈ p) : c ∈ l := by
  induction p generalizing l with
  | nil => simp at hc
  | cons a p' ih =>
    match l with
    | [] => simp [List.isPrefixOf] at h
    | b :: l' =>
      simp only [List.isPrefixOf, Bool.and_eq_true, beq_iff_eq] at h
      rcases List.mem_cons.mp hc with h1 | h2
      · rw [h1, h.1]; exact List.mem_cons_self ..
      · exact List.mem_cons_of_mem _ (ih h.2 h2)

theorem has_sub_iff (p s : Str) : has_sub p s = true ↔ ∃ i, p.isPrefixOf (s.drop i) = true := by
  induction s with
  | nil =>
    simp only [has_sub, List.drop_nil]
    exact ⟨fun h => ⟨0, h⟩, fun ⟨_, hi⟩ => hi⟩
  | cons c rest ih =>
    simp only [has_sub, Bool.or_eq_true, ih]
    constructor
    · rintro (h | ⟨i, hi⟩)
      · exact ⟨0, h⟩
      · exact ⟨i + 1, by simpa using hi⟩
    · rintro ⟨i, hi⟩
      match i with
      | 0 => exact Or.inl (by simpa using hi)
      | i' + 1 => exact Or.inr ⟨i', by simpa using hi⟩

theorem mem_of_has_sub {p s : Str} {c : Char} (h : has_sub p s = true) (hc : c ∈ p) :
    c ∈ s := by
  obtain ⟨i, hi⟩ := (has_sub_iff p s).mp h
  exact List.drop_subset _ _ (mem_of_isPrefixOf hi hc)

theorem has_sub_append {p a b : Str} (h : has_sub p (a ++ b) = true) :
    (∃ i, i < a.length ∧ p.isPrefixOf ((a ++ b).drop i) = true) ∨ has_sub p b = true := by
  obtain ⟨i, hi⟩ := (has_sub_iff p (a ++ b)).mp h
  by_cases hlt : i < a.length
  · exact Or.inl ⟨i, hlt, hi⟩
  · right
    rw [has_sub_iff]
    rw [show i = a.length + (i - a.length) from by omega, List.drop_append] at hi
    exact ⟨i - a.length, hi⟩

theorem no_start_in_left {p : Str} (a b : Str) {k : Nat} {ch : Char}
    (hpk : p[k]? = some ch) (ha : ch ∉ a) (hb : ∀ j, j < k → b[j]? ≠ some ch) :
    ∀ i, i < a.length → p.isPrefixOf ((a ++ b).drop i) = false := by
  intro i hi
  by_contra hcon
  have hpre : p.isPrefixOf ((a ++ b).drop i) = true := by
    revert hcon
    cases p.isPrefixOf ((a ++ b).drop i) <;> simp
  have hk : k < p.length := (List.getElem?_eq_some.mp hpk).1
  have h1 : ((a ++ b).drop i)[k]? = some ch := by rw [isPrefixOf_getElem hpre hk, hpk]
  rw [List.getElem?_drop] at h1
  by_cases h2 : i + k < a.length
  · rw [List.getElem?_append_left h2] at h1
    exact ha (List.getElem?_mem h1)
  · rw [List.getElem?_append_right (by omega)] at h1
    exact hb (i + k - a.length) (by omega) h1

theorem py_replace_go_congr (p r : Str) (f₁ f₂ : Nat) (s : Str)
    (h₁ : s.length ≤ f₁) (h₂ : s.length ≤ f₂) :
    py_replace_go p r f₁ s = py_replace_go p r f₂ s := by
  induction f₁ generalizing s f₂ with
  | zero =>
    match s with
    | [] => cases f₂ <;> rfl
    | c :: rest => simp at h₁
  | succ f₁' ih =>
    match s with
    | [] => cases f₂ <;> rfl
    | c :: rest =>
      match f₂ with
      | 0 => simp at h₂
      | f₂' + 1 =>
        simp only [py_replace_go]
        by_cases hc : p ≠ [] ∧ p.isPrefixOf (c :: rest) = true
        · rw [if_pos hc, if_pos hc]
          have hp : 1 ≤ p.length := List.length_pos.mpr hc.1
          have hlen : ((c :: rest).drop p.length).length ≤ f₁' := by
            simp only [List.length_drop, List.length_cons]
            simp only [List.length_cons] at h₁
            omega
          have hlen2 : ((c :: rest).drop p.length).length ≤ f₂' := by
            simp only [List.length_drop, List.length_cons]
            simp only [List.length_cons] at h₂
            omega
          rw [ih f₂' _ hlen hlen2]
        · rw [if_neg hc, if_neg hc]
          have hlen : rest.length ≤ f₁' := by
            simp only [List.length_cons] at h₁
            omega
          have hlen2 : rest.length ≤ f₂' := by
            simp only [List.length_cons] at h₂
            omega
          rw [ih f₂' _ hlen hlen2]

theorem py_replace_append_left {p : Str} (r a b : Str)
    (h : ∀ i, i < a.length → p.isPrefixOf ((a ++ b).drop i) = false) :
    py_replace p r (a ++ b) = a ++ py_replace p r b := by
  induction a with
  | nil => simp
  | cons x a' ih =>
    have h0 : p.isPrefixOf (x :: (a' ++ b)) = false := by
      have := h 0 (by simp)
      simpa using this
    have hx : ¬(p ≠ [] ∧ p.isPrefixOf (x :: (a' ++ b)) = true) := by
      rintro ⟨-, hpre⟩
      rw [h0] at hpre
      exact Bool.noConfusion hpre
    have ih' := ih (fun i hi => by
      have := h (i + 1) (by simpa using hi)
      simpa using this)
    show py_replace_go p r ((x :: a' ++ b).length) (x :: a' ++ b) = _
    simp only [List.cons_append, List.length_cons]
    rw [py_replace_go, if_neg hx]
    exact congrArg (x :: ·) ih'

theorem mem_of_py_replace_go {p r : Str} {c : Char} (fuel : Nat) (s : Str)
    (h : c ∈ py_replace_go p r fuel s) : c ∈ s ∨ c ∈ r := by
  induction fuel generalizing s with
  | zero =>
    match s with
    | [] => simp [py_replace_go] at h
    | x :: rest => exact Or.inl (by simpa [py_replace_go] using h)
  | succ f ih =>
    match s with
    | [] => simp [py_replace_go] at h
    | x :: rest =>
      simp only [py_replace_go] at h
      by_cases hc : p ≠ [] ∧ p.isPrefixOf (x :: rest) = true
      · rw [if_pos hc] at h
        rcases List.mem_append.mp h with h1 | h2
        · exact Or.inr h1
        · rcases ih _ h2 with h3 | h4
          · exact Or.inl (List.drop_subset _ _ h3)
          · exact Or.inr h4
      · rw [if_neg hc] at h
        rcases List.mem_cons.mp h with h1 | h2
        · exact Or.inl (by rw [h1]; exact List.mem_cons_self ..)
        · rcases ih _ h2 with h3 | h4
          · exact Or.inl (List.mem_cons_of_mem _ h3)
          · exact Or.inr h4

theorem mem_of_py_replace {p r s : Str} {c : Char} (h : c ∈ py_replace p r s) :
    c ∈ s ∨ c ∈ r := mem_of_py_replace_go _ _ h

theorem render_default_0 (name : Str) :
    py_format [(str "name", name), (str "days", int_str 0)]
      (str "Reminder: {name}'s birthday is in {days} days!") =
    .ok (str "Reminder: " ++ (name ++ str "'s birthday is in 0 days!")) := rfl

theorem render_default_1 (name : Str) :
    py_format [(str "name", name), (str "days", int_str 1)]
      (str "Reminder: {name}'s birthday is in {days} days!") =
    .ok (str "Reminder: " ++ (name ++ str "'s birthday is in 1 days!")) := rfl

/-- Claim C5 (amended): when `daysBefore = 0` and the template does not
contain "{days}", the message is exactly "Today is {name}'s birthday!" (for
every template and name); and for the default reminder template, the
`daysBefore = 0` message never contains "0 days" and the `daysBefore = 1`
message never contains "1 days", for every name not itself containing the
digit '0' (resp. '1').  (For arbitrary templates the normalization only
rewrites the "in 0 days"/"in 0 day"/"is in today"/"1 days" phrasings, so
other phrasings can survive — see the counterexample.) -/
theorem reminder_normalization :
    (∀ (template name : Str), has_sub (str "{days}") template = false →
      format_reminder_message template name 0 =
        .ok (str "Today is " ++ name ++ str "'s birthday!")) ∧
    (∀ name : Str, '0' ∉ name →
      ∃ m, format_reminder_message default_config.reminder_template name 0 = .ok m ∧
        has_sub (str "0 days") m = false) ∧
    (∀ name : Str, '1' ∉ name →
      ∃ m, format_reminder_message default_config.reminder_template name 1 = .ok m ∧
        has_sub (str "1 days") m = false) := by
  refine ⟨?_, ?_, ?_⟩
  · intro template name hnot
    simp [format_reminder_message, render_reminder, hnot]
  · intro name h0
    have ha : '0' ∉ (str "Reminder: " ++ name) := by
      intro hmem
      rcases List.mem_append.mp hmem with h | h
      · revert h; decide
      · exact h0 h
    have hnostart := no_start_in_left (str "Reminder: " ++ name)
      (str "'s birthday is in 0 days!")
      (show (str "in 0 days")[3]? = some '0' by decide) ha
      (by intro j hj; interval_cases j <;> decide)
    have hs1 : py_replace (str "in 0 days") (str "today")
        ((str "Reminder: " ++ name) ++ str "'s birthday is in 0 days!") =
        (str "Reminder: " ++ name) ++ str "'s birthday is today!" := by
      rw [py_replace_append_left (str "today") _ _ hnostart]
      have hinner : py_replace (str "in 0 days") (str "today")
          (str "'s birthday is in 0 days!") = str "'s birthday is today!" := by decide
      rw [hinner]
    have hnostart2 := no_start_in_left (str "Reminder: " ++ name)
      (str "'s birthday is today!")
      (show (str "in 0 day")[3]? = some '0' by decide) ha
      (by intro j hj; interval_cases j <;> decide)
    have hs2 : py_replace (str "in 0 day") (str "today")
        ((str "Reminder: " ++ name) ++ str "'s birthday is today!") =
        (str "Reminder: " ++ name) ++ str "'s birthday is today!" := by
      rw [py_replace_append_left (str "today") _ _ hnostart2]
      have hinner : py_replace (str "in 0 day") (str "today")
          (str "'s birthday is today!") = str "'s birthday is today!" := by decide
      rw [hinner]
    have hrender : render_reminder default_config.reminder_template name 0 =
        .ok (py_replace (str "is in today") (str "is today")
          ((str "Reminder: " ++ name) ++ str "'s birthday is today!")) := by
      unfold render_reminder
      rw [if_pos rfl, if_pos (by decide)]
      show Except.map _ (py_format [(str "name", name), (str "days", int_str 0)]
        (str "Reminder: {name}'s birthday is in {days} days!")) = _
      rw [render_default_0]
      simp only [Except.map]
      rw [← List.append_assoc, hs1, hs2]
    refine ⟨py_replace (str "is in today") (str "is today")
      ((str "Reminder: " ++ name) ++ str "'s birthday is today!"), ?_, ?_⟩
    · unfold format_reminder_message
      rw [hrender]
    · by_contra hcon
      have htrue : has_sub (str "0 days") (py_replace (str "is in today") (str "is today")
          ((str "Reminder: " ++ name) ++ str "'s birthday is today!")) = true := by
        revert hcon
        cases has_sub (str "0 days") (py_replace (str "is in today") (str "is today")
          ((str "Reminder: " ++ name) ++ str "'s birthday is today!")) <;> simp
      have h0M : '0' ∈ py_replace (str "is in today") (str "is today")
          ((str "Reminder: " ++ name) ++ str "'s birthday is today!") :=
        mem_of_has_sub htrue (by decide)
      rcases mem_of_py_replace h0M with hM | hM
      · rcases List.mem_append.mp hM with h | h
        · exact ha h
        · revert h; decide
      · revert hM; decide
  · intro name h1
    have ha : '1' ∉ (str "Reminder: " ++ name) := by
      intro hmem
      rcases List.mem_append.mp hmem with h | h
      · revert h; decide
      · exact h1 h
    have hnostart := no_start_in_left (str "Reminder: " ++ name)
      (str "'s birthday is in 1 days!")
      (show (str "1 days")[0]? = some '1' by decide) ha
      (fun j hj => absurd hj (Nat.not_lt_zero j))
    have hs3 : py_replace (str "1 days") (str "1 day")
        ((str "Reminder: " ++ name) ++ str "'s birthday is in 1 days!") =
        (str "Reminder: " ++ name) ++ str "'s birthday is in 1 day!" := by
      rw [py_replace_append_left (str "1 day") _ _ hnostart]
      have hinner : py_replace (str "1 days") (str "1 day")
          (str "'s birthday is in 1 days!") = str "'s birthday is in 1 day!" := by decide
      rw [hinner]
    have hrender : render_reminder default_config.reminder_template name 1 =
        .ok ((str "Reminder: " ++ name) ++ str "'s birthday is in 1 day!") := by
      unfold render_reminder
      rw [if_neg (by decide), if_pos rfl]
      show Except.map _ (py_format [(str "name", name), (str "days", int_str 1)]
        (str "Reminder: {name}'s birthday is in {days} days!")) = _
      rw [render_default_1]
      simp only [Except.map]
      rw [← List.append_assoc, hs3]
    refine ⟨(str "Reminder: " ++ name) ++ str "'s birthday is in 1 day!", ?_, ?_⟩
    · unfold format_reminder_message
      rw [hrender]
    · by_contra hcon
      have htrue : has_sub (str "1 days")
          ((str "Reminder: " ++ name) ++ str "'s birthday is in 1 day!") = true := by
        revert hcon
        cases has_sub (str "1 days")
          ((str "Reminder: " ++ name) ++ str "'s birthday is in 1 day!") <;> simp
      have hnostart4 := no_start_in_left (str "Reminder: " ++ name)
        (str "'s birthday is in 1 day!")
        (show (str "1 days")[0]? = some '1' by decide) ha
        (fun j hj => absurd hj (Nat.not_lt_zero j))
      rcases has_sub_append htrue with ⟨i, hi, hpre⟩ | hb
      · rw [hnostart4 i hi] at hpre
        exact Bool.noConfusion hpre
      · revert hb; decide

/-- Witness for `reminder_normalization` at the concrete name "Bob" (which
contains neither digit) and a {days}-free template. -/
theorem reminder_normalization_witness :
    format_reminder_message (str "party!") (str "Bob") 0 =
      .ok (str "Today is " ++ str "Bob" ++ str "'s birthday!") ∧
    (∃ m, format_reminder_message default_config.reminder_template (str "Bob") 0 = .ok m ∧
      has_sub (str "0 days") m = false) ∧
    (∃ m, format_reminder_message default_config.reminder_template (str "Bob") 1 = .ok m ∧
      has_sub (str "1 days") m = false) :=
  ⟨reminder_normalization.1 (str "party!") (str "Bob") (by decide),
   reminder_normalization.2.1 (str "Bob") (by decide),
   reminder_normalization.2.2 (str "Bob") (by decide)⟩

/-- Claim C5 counterexample: a template whose "{days} days" phrasing is not
preceded by "in" survives the normalization — with daysBefore=0 the message
"0 days until Bob's birthday" contains "0 days" (and a crafted template shows
the same for "1 days"): the claim does not hold for every template. -/
theorem reminder_normalization_counterexample :
    format_reminder_message (str "{days} days until {name}") (str "Bob") 0 =
      .ok (str "0 days until Bob") ∧
    has_sub (str "0 days") (str "0 days until Bob") = true ∧
    format_reminder_message (str "{name} 1 dayss") (str "Bob") 1 =
      .ok (str "Bob 1 days") ∧
    has_sub (str "1 days") (str "Bob 1 days") = true := by
  exact ⟨by decide, by decide, by decide, by decide⟩

theorem isPrefixOf_append_self (a b : Str) : a.isPrefixOf (a ++ b) = true := by
  induction a with
  | nil => simp [List.isPrefixOf]
  | cons x a' ih => simp [List.isPrefixOf, ih]

theorem build_alarms_triggers {template name : Str} {ds : List Int} {alarms : List Alarm}
    (h : build_alarms_go template name ds = .ok alarms) :
    alarms.filterMap (·.trigger_days) = ds.map (fun d => -d) := by
  induction ds generalizing alarms with
  | nil =>
    have : alarms = [] := (Except.ok.inj h).symm
    subst this
    rfl
  | cons d ds' ih =>
    unfold build_alarms_go at h
    cases hm : format_reminder_message template name d with
    | error e => rw [hm] at h; exact absurd h (by simp)
    | ok m =>
      rw [hm] at h
      cases hgo : build_alarms_go template name ds' with
      | error e => rw [hgo] at h; exact absurd h (by simp)
      | ok rest =>
        rw [hgo] at h
        have : ({ trigger_days := some (-d), message := m } : Alarm) :: rest = alarms :=
          Except.ok.inj h
        subst this
        simp only [List.filterMap_cons, List.map_cons]
        rw [ih hgo]

theorem map_abs_neg_of_nonneg {ds : List Int} (h : ∀ d ∈ ds, 0 ≤ d) :
    (ds.map (fun d => -d)).map (fun x => |x|) = ds := by
  induction ds with
  | nil => rfl
  | cons d ds' ih =>
    simp only [List.map_cons]
    rw [abs_neg, abs_of_nonneg (h d (List.mem_cons_self ..)),
      ih (fun x hx => h x (List.mem_cons_of_mem _ hx))]

theorem find_first_append_last {α : Type} {q : α → Bool} {l : List α} {y : α}
    (hall : ∀ x ∈ l, q x = false) (hy : q y = true) :
    find_first q (l ++ [y]) = some l.length := by
  have hx : (l ++ [y])[l.length]? = some y := by
    rw [List.getElem?_append_right (Nat.le_refl _)]
    simp
  refine find_first_eq_some_of hx hy ?_
  intro j hj z hz
  rw [List.getElem?_append_left hj] at hz
  exact hall z (List.getElem?_mem hz)

theorem update_no_op (cfg : BdayConfig) (i : Nat) (contact : Contact) (year : Nat)
    (new_title new_description : Str) (st : CalState) (ev : StoredEvent)
    (hev : st[i]? = some ev)
    (htitle : ev.summary = some new_title)
    (hdescr : ev.descr = some new_description)
    (hrem : py_sorted ((ev.alarms.filterMap (·.trigger_days)).map (fun t => |t|)) =
      py_sorted cfg.reminder_days) :
    update_existing_event cfg i contact year new_title new_description st = (false, st) := by
  unfold update_existing_event
  rw [hev]
  cases hrep : date_replace_year contact.birthday year with
  | none => rfl
  | some d => simp [htitle, hdescr, hrem]

/-- Claim C1 (amended): with non-negative configured reminder days (as the
ReminderSpec data model requires), a first `create_birthday_event` call that
returns True is followed by a second call that finds the written event,
compares title, description and sorted reminder day-set, finds them equal,
and returns False with no write — unconditionally when the first call
created the event, and, when it updated an existing match, under the proviso
that the updated event is still matchable (the rendered title passes the
name-plus-keyword test, or the matched event's UID carries the deterministic
"birthday-"+normalized-name stub; otherwise the update can orphan the event
and the second call creates a duplicate, see the counterexample). -/
theorem reconcile_idempotent (cfg : BdayConfig) (contact : Contact) (year : Nat)
    (st : CalState)
    (hdays : ∀ d ∈ cfg.reminder_days, 0 ≤ d)
    (h1 : (create_birthday_event cfg contact year st).1 = true)
    (hmatch : ∀ ed i, date_replace_year contact.birthday year = some ed →
      find_existing_event contact.name cfg.event_category ed st = some i →
      (∀ t, py_format [(str "name", contact.name)] cfg.event_title_template = .ok t →
        (has_sub contact.name t &&
          (has_sub (py_lower cfg.event_category) (py_lower t) ||
            has_sub (str "birthday") (py_lower t))) = true) ∨
      (∃ ev u, st[i]? = some ev ∧ ev.uid = some u ∧
        (str "birthday-" ++ py_lower (replace_char ' ' '-' contact.name)).isPrefixOf u
          = true)) :
    create_birthday_event cfg contact year
        (create_birthday_event cfg contact year st).2 =
      (false, (create_birthday_event cfg contact year st).2) := by
  cases hrep : date_replace_year contact.birthday year with
  | none =>
    simp only [create_birthday_event, hrep] at h1
    exact Bool.noConfusion h1
  | some ed =>
  cases htit : py_format [(str "name", contact.name)] cfg.event_title_template with
  | error e =>
    simp only [create_birthday_event, hrep, htit] at h1
    exact Bool.noConfusion h1
  | ok t =>
  cases hdsc : py_format [(str "name", contact.name)] cfg.event_description_template with
  | error e =>
    simp only [create_birthday_event, hrep, htit, hdsc] at h1
    exact Bool.noConfusion h1
  | ok dsc =>
  cases hfind : find_existing_event contact.name cfg.event_category ed st with
  | none =>
    cases halarm : build_alarms cfg contact.name with
    | error e =>
      simp only [create_birthday_event, hrep, htit, hdsc, hfind, halarm] at h1
      exact Bool.noConfusion h1
    | ok alarms =>
      have hst1 : create_birthday_event cfg contact year st =
          (true, st ++ [(⟨ed, some (event_uid contact.name ed), some t, some dsc,
            [cfg.event_category], some (str "FREQ=YEARLY"), alarms⟩ : StoredEvent)]) := by
        simp only [create_birthday_event, hrep, htit, hdsc, hfind, halarm]
      rw [hst1]
      set newev : StoredEvent := ⟨ed, some (event_uid contact.name ed), some t, some dsc,
        [cfg.event_category], some (str "FREQ=YEARLY"), alarms⟩ with hnew
      have hall : ∀ x ∈ st, (decide (x.date = ed) &&
          event_matches contact.name cfg.event_category x) = false :=
        find_first_eq_none hfind
      have hpre : (str "birthday-" ++
          py_lower (replace_char ' ' '-' contact.name)).isPrefixOf
          (event_uid contact.name ed) = true := by
        unfold event_uid
        rw [show str "birthday-" ++ py_lower (replace_char ' ' '-' contact.name) ++
            str "-" ++ fmt_ymd ed =
          (str "birthday-" ++ py_lower (replace_char ' ' '-' contact.name)) ++
            (str "-" ++ fmt_ymd ed) from by simp [List.append_assoc]]
        exact isPrefixOf_append_self ..
      have hq : (decide (newev.date = ed) &&
          event_matches contact.name cfg.event_category newev) = true := by
        simp [hnew, event_matches, hpre]
      have hfind2 : find_existing_event contact.name cfg.event_category ed
          (st ++ [newev]) = some st.length := find_first_append_last hall hq
      have htr : (alarms.filterMap (·.trigger_days)).map (fun x => |x|) =
          cfg.reminder_days := by
        rw [build_alarms_triggers halarm, map_abs_neg_of_nonneg hdays]
      have hnth : (st ++ [newev])[st.length]? = some newev := by
        rw [List.getElem?_append_right (Nat.le_refl _)]
        simp
      simp only [create_birthday_event, hrep, htit, hdsc, hfind2]
      by_cases hupd : cfg.update_existing = true
      · rw [if_pos hupd]
        exact update_no_op cfg st.length contact year t dsc (st ++ [newev]) newev hnth
          rfl rfl (by rw [htr])
      · rw [if_neg hupd]
  | some i =>
    by_cases hupd : cfg.update_existing = true
    case neg =>
      simp only [create_birthday_event, hrep, htit, hdsc, hfind, if_neg hupd] at h1
      exact Bool.noConfusion h1
    case pos =>
    obtain ⟨ev, hev, hqev, hprior⟩ := find_first_eq_some hfind
    have h1' : (update_existing_event cfg i contact year t dsc st).1 = true := by
      rw [← h1]
      simp only [create_birthday_event, hrep, htit, hdsc, hfind, if_pos hupd]
    unfold update_existing_event at h1'
    simp only [hev, hrep] at h1'
    by_cases hcond : ev.summary.getD [] = t ∧ ev.descr.getD [] = dsc ∧
        py_sorted ((ev.alarms.filterMap (·.trigger_days)).map (fun t => |t|)) =
          py_sorted cfg.reminder_days
    · rw [if_pos hcond] at h1'
      exact absurd h1' (by simp)
    · rw [if_neg hcond] at h1'
      cases halarm : build_alarms cfg contact.name with
      | error e =>
        rw [halarm] at h1'
        exact absurd h1' (by simp)
      | ok alarms =>
        have hst1 : create_birthday_event cfg contact year st =
            (true, st.set i { ev with
              summary := some t
              descr := some dsc
              categories := [cfg.event_category]
              alarms := alarms }) := by
          simp only [create_birthday_event, hrep, htit, hdsc, hfind, if_pos hupd]
          unfold update_existing_event
          simp only [hev, hrep]
          rw [if_neg hcond, halarm]
        rw [hst1]
        set newev : StoredEvent := { ev with
          summary := some t
          descr := some dsc
          categories := [cfg.event_category]
          alarms := alarms } with hnew
        have hlen : i < st.length := (List.getElem?_eq_some.mp hev).1
        have hed : ev.date = ed :=
          of_decide_eq_true ((Bool.and_eq_true _ _).mp hqev).1
        have hm2 : event_matches contact.name cfg.event_category newev = true := by
          rcases hmatch ed i hrep hfind with hA | hB
          · have hA' := hA t htit
            simp [hnew, event_matches, hA']
          · obtain ⟨ev', u, hev', hu, hup⟩ := hB
            have hee : ev' = ev := by
              rw [hev] at hev'
              exact (Option.some.inj hev').symm
            subst hee
            simp [hnew, event_matches, hu, hup]
        have hq2 : (decide (newev.date = ed) &&
            event_matches contact.name cfg.event_category newev) = true := by
          have hd2 : newev.date = ed := hed
          simp [hed, hd2, hm2]
        have hnth : (st.set i newev)[i]? = some newev := List.getElem?_set_self hlen
        have hfind2 : find_existing_event contact.name cfg.event_category ed
            (st.set i newev) = some i := by
          refine find_first_eq_some_of hnth hq2 ?_
          intro j hj z hz
          rw [List.getElem?_set_ne (by omega)] at hz
          exact hprior j hj z hz
        have htr : (alarms.filterMap (·.trigger_days)).map (fun x => |x|) =
            cfg.reminder_days := by
          rw [build_alarms_triggers halarm, map_abs_neg_of_nonneg hdays]
        simp only [create_birthday_event, hrep, htit, hdsc, hfind2, if_pos hupd]
        exact update_no_op cfg i contact year t dsc (st.set i newev) newev hnth
          rfl rfl (by rw [htr])

/-- Witness for `reconcile_idempotent`: Bob under the default configuration
on an empty calendar — the first call creates (True), the second call skips
(False) and leaves the calendar unchanged. -/
theorem reconcile_idempotent_witness :
    (create_birthday_event default_config ⟨str "Bob", ⟨2000, 6, 15⟩⟩ 2025 []).1 = true ∧
    create_birthday_event default_config ⟨str "Bob", ⟨2000, 6, 15⟩⟩ 2025
        (create_birthday_event default_config ⟨str "Bob", ⟨2000, 6, 15⟩⟩ 2025 []).2 =
      (false, (create_birthday_event default_config ⟨str "Bob", ⟨2000, 6, 15⟩⟩ 2025 []).2) :=
  ⟨by decide,
   reconcile_idempotent default_config ⟨str "Bob", ⟨2000, 6, 15⟩⟩ 2025 []
     (by decide) (by decide)
     (fun ed i hrep hfind => absurd hfind (by simp [find_existing_event, find_first]))⟩

/-- Claim C1 counterexample: with a title template not containing the name
("Party time") and an existing event matched only through its summary, the
first call Updates (True) — rewriting the summary to "Party time" — and the
immediate second call no longer finds the event (summary fails the name
test, UID "legacy-1" fails the stub test), so it Creates again (True, a
second write and a duplicate event) instead of returning Skipped. -/
theorem reconcile_idempotent_counterexample :
    (create_birthday_event
        ⟨str "Party time", str "", [1],
          str "Reminder: {name}'s birthday is in {days} days!", str "Birthday", true⟩
        ⟨str "Bob", ⟨2000, 6, 15⟩⟩ 2025
        [⟨⟨2025, 6, 15⟩, some (str "legacy-1"), some (str "Bob birthday party"),
          some (str ""), [], none, []⟩]).1 = true ∧
    (create_birthday_event
        ⟨str "Party time", str "", [1],
          str "Reminder: {name}'s birthday is in {days} days!", str "Birthday", true⟩
        ⟨str "Bob", ⟨2000, 6, 15⟩⟩ 2025
        (create_birthday_event
          ⟨str "Party time", str "", [1],
            str "Reminder: {name}'s birthday is in {days} days!", str "Birthday", true⟩
          ⟨str "Bob", ⟨2000, 6, 15⟩⟩ 2025
          [⟨⟨2025, 6, 15⟩, some (str "legacy-1"), some (str "Bob birthday party"),
            some (str ""), [], none, []⟩]).2).1 = true ∧
    ((create_birthday_event
        ⟨str "Party time", str "", [1],
          str "Reminder: {name}'s birthday is in {days} days!", str "Birthday", true⟩
        ⟨str "Bob", ⟨2000, 6, 15⟩⟩ 2025
        (create_birthday_event
          ⟨str "Party time", str "", [1],
            str "Reminder: {name}'s birthday is in {days} days!", str "Birthday", true⟩
          ⟨str "Bob", ⟨2000, 6, 15⟩⟩ 2025
          [⟨⟨2025, 6, 15⟩, some (str "legacy-1"), some (str "Bob birthday party"),
            some (str ""), [], none, []⟩]).2).2).length = 2 := by
  exact ⟨by decide, by decide, by decide⟩
